import Mathlib

set_option maxHeartbeats 1000000

namespace GeminiDeck

/-- Embeds one row of the `ai_accounts` table (src/backend/app/services/database.py).
Only the columns read or written by the quota ledger and the rotating client are
modelled; `provider`, `refresh_token`, `expires_at` and `created_at` are never
consulted by those operations. SQLite NULL/empty secrets are both modelled as the
empty string (Python truthiness treats them alike). `last_reset` is a calendar-day
ordinal, mirroring the SQL comparison `date(last_reset) < date(today)`. -/
structure Account where
  id : Int
  user_id : Int
  name : String
  token : String
  api_key : String
  daily_limit : Int
  daily_used : Int
  last_reset : Nat
  is_active : Bool
deriving DecidableEq, Repr

/-- Remaining quota `daily_limit - daily_used`, as computed by the SQL expressions
in src/backend/app/routers/accounts.py. -/
def remaining (a : Account) : Int := a.daily_limit - a.daily_used

/-- Effect of `reset_daily_quotas_if_needed` (accounts.py lines 46-57) on one row:
`UPDATE ai_accounts SET daily_used = 0, last_reset = today WHERE date(last_reset) < date(today)`. -/
def reset_one (today : Nat) (a : Account) : Account :=
  if a.last_reset < today then { a with daily_used := 0, last_reset := today } else a

/-- `reset_daily_quotas_if_needed` applied to the whole `ai_accounts` table (the SQL
UPDATE has no user filter). -/
def reset_daily_quotas_if_needed (today : Nat) (db : List Account) : List Account :=
  db.map (reset_one today)

/-- The WHERE clause of `get_best_account` (accounts.py line 67):
`user_id = ? AND is_active = 1 AND (daily_limit - daily_used) > 0`. -/
def qualifies (uid : Int) (a : Account) : Bool :=
  a.user_id == uid && a.is_active && decide (0 < a.daily_limit - a.daily_used)

/-- One step of `ORDER BY (daily_limit - daily_used) DESC LIMIT 1`: keep the row with
the strictly larger remaining quota, keeping the earlier row on ties (a deterministic
refinement of SQLite's unspecified tie order). -/
def pick_better (best : Option Account) (a : Account) : Option Account :=
  match best with
  | none => some a
  | some b => if remaining b < remaining a then some a else some b

/-- The SELECT of `get_best_account` (accounts.py lines 65-70): among qualifying rows,
one with maximal remaining quota, or none. -/
def pick_best (uid : Int) (db : List Account) : Option Account :=
  (db.filter (fun a => qualifies uid a)).foldl pick_better none

/-- `get_best_account` (accounts.py lines 60-73): first commits the day-rollover reset,
then selects. The second component is the table as left behind by the committed reset. -/
def get_best_account (uid : Int) (today : Nat) (db : List Account) :
    Option Account × List Account :=
  (pick_best uid (reset_daily_quotas_if_needed today db),
   reset_daily_quotas_if_needed today db)

/-- `increment_usage` (accounts.py lines 76-84):
`UPDATE ai_accounts SET daily_used = daily_used + 1 WHERE id = ?`. -/
def increment_usage (account_id : Int) (db : List Account) : List Account :=
  db.map (fun a => if a.id = account_id then { a with daily_used := a.daily_used + 1 } else a)

/-- Effect of `mark_account_error` (accounts.py lines 87-97) on one row when the error
type is "429": `UPDATE ai_accounts SET daily_used = daily_limit WHERE id = ?`. -/
def mark_one (account_id : Int) (a : Account) : Account :=
  if a.id = account_id then { a with daily_used := a.daily_limit } else a

/-- `mark_account_error` (accounts.py lines 87-97): for error type "429" the account's
usage is maxed out; for any other error type the function does nothing. -/
def mark_account_error (account_id : Int) (error_type : String) (db : List Account) :
    List Account :=
  if error_type = "429" then db.map (mark_one account_id) else db

/-- Does `pat` occur at the start of `text`? Helper for Python's substring operator. -/
def starts_chars : List Char → List Char → Bool
  | [], _ => true
  | _ :: _, [] => false
  | c :: cs, d :: ds => c == d && starts_chars cs ds

/-- Does `pat` occur contiguously anywhere in `text`? Embeds Python's `pat in text`
and `re.search` on a literal (regex-metacharacter-free) pattern. -/
def contains_chars (pat : List Char) : List Char → Bool
  | [] => starts_chars pat []
  | d :: ds => starts_chars pat (d :: ds) || contains_chars pat ds

/-- Python `pat in text` on strings. -/
def py_contains (text pat : String) : Bool :=
  contains_chars pat.data text.data

/-- Python `str.lower()` (ASCII-faithful). -/
def py_lower (s : String) : String :=
  String.mk (s.data.map Char.toLower)

/-- The quota/rate-limit indicator test shared by `GeminiAPIClient.generate` (lines
67-71) and `GeminiAPIClient.stream` (lines 111-115) of gemini_client.py, applied to
`error_str = str(e).lower()`:
`"429" in error_str or "quota" in error_str or "rate" in error_str or
 "resource_exhausted" in error_str`. -/
def quota_indicator (error_str : String) : Bool :=
  py_contains error_str "429" || py_contains error_str "quota" ||
    py_contains error_str "rate" || py_contains error_str "resource_exhausted"

/-- How a failure of the generation backend is surfaced to the caller:
`QuotaExceededError(str(e))` or the original exception re-raised unchanged. -/
inductive GenFailure where
  | quotaExceeded (msg : String)
  | generic (msg : String)
deriving DecidableEq, Repr

/-- The except-clause of `GeminiAPIClient.generate` (gemini_client.py lines 67-71). -/
def generate_error_surface (msg : String) : GenFailure :=
  if quota_indicator (py_lower msg) then .quotaExceeded msg else .generic msg

/-- The except-clause of `GeminiAPIClient.stream` (gemini_client.py lines 111-115),
textually identical to the one in `generate`. -/
def stream_error_surface (msg : String) : GenFailure :=
  if quota_indicator (py_lower msg) then .quotaExceeded msg else .generic msg

/-- Python `xs[-n:]`: the last at-most-`n` elements of `xs`. -/
def lastN (n : Nat) (xs : List String) : List String :=
  xs.drop (xs.length - n)

/-- Prompt construction in `GeminiAPIClient.generate` (gemini_client.py lines 50-54):
`full_prompt = prompt`, and when the context list is truthy (non-empty; `None` and
`[]` behave identically) the last five context items joined by newlines are framed
between "Previous context:" and "User:" exactly as in the source f-string. -/
def generate_full_prompt (prompt : String) (context : List String) : String :=
  if context.isEmpty then prompt
  else "Previous context:\n" ++ String.intercalate "\n" (lastN 5 context) ++
    "\n\nUser: " ++ prompt

/-- Prompt construction in `GeminiAPIClient.stream` (gemini_client.py lines 87-91),
textually identical to the one in `generate`. -/
def stream_full_prompt (prompt : String) (context : List String) : String :=
  if context.isEmpty then prompt
  else "Previous context:\n" ++ String.intercalate "\n" (lastN 5 context) ++
    "\n\nUser: " ++ prompt

/-- The pattern table of `SecurityService` (security.py lines 7-14). Each entry lists
the literal strings whose presence in the lowercased prompt makes `re.search` match:
the only regex metacharacter in the table is the alternation in
`you are now (DAN|do anything now)`, expanded here into its two alternatives (the
`DAN` alternative is kept verbatim even though a lowercased prompt can never
contain it). -/
def risk_patterns : List (List String × String) :=
  [ (["ignore previous instructions"], "Prompt Injection (Ignore Instructions)"),
    (["you are now DAN", "you are now do anything now"], "Jailbreak Attempt (DAN Mode)"),
    (["system override"], "System Override Attempt"),
    (["delete all files"], "Malicious Intent (File Deletion)"),
    (["rm -rf"], "Malicious Command (rm -rf)"),
    (["/etc/shadow"], "Sensitive File Access") ]

/-- The pattern loop of `SecurityService.analyze_prompt` (security.py lines 23-25):
first matching pattern wins. -/
def find_risk (lower : String) : List (List String × String) → Option String
  | [] => none
  | (alts, riskName) :: rest =>
      if alts.any (fun pat => py_contains lower pat) then some riskName
      else find_risk lower rest

/-- `SecurityService.analyze_prompt` (security.py lines 16-31): pattern scan on the
lowercased prompt, then the 10000-character length check, else safe. -/
def analyze_prompt (prompt : String) : Bool × Option String :=
  match find_risk (py_lower prompt) risk_patterns with
  | some riskName => (false, some ("Blocked: " ++ riskName ++ " detected."))
  | none =>
      if prompt.length > 10000 then
        (false, some "Blocked: Prompt exceeds maximum length (10k chars).")
      else (true, none)

/-- The secret the rotating client binds (gemini_client.py line 144):
`account.get("api_key") or account.get("token")`; the empty string is Python-falsy. -/
def account_key (a : Account) : String :=
  if a.api_key ≠ "" then a.api_key else a.token

/-- Behaviour of one underlying `GeminiAPIClient.stream` attempt as observed by
`MultiAccountGeminiClient.stream`, after the backend's own error classification:
a normally completing stream of fragments, a stream aborted by `QuotaExceededError`
after some fragments, or a stream aborted by any other exception carrying `str(e)`. -/
inductive AttemptResult where
  | ok (chunks : List String)
  | quotaErr (frags : List String)
  | otherErr (frags : List String) (msg : String)

/-- Terminal condition of one `MultiAccountGeminiClient.stream` call. `success` is a
normally ending generator; `noQuota` and `noApiKey` are the two `ValueError`s of
`_get_next_account` (gemini_client.py lines 141 and 147); `quotaExceeded` is the
re-raised `QuotaExceededError`; `backendFailure` is any other re-raised exception. -/
inductive Outcome where
  | success
  | quotaExceeded
  | noQuota
  | noApiKey (accountName : String)
  | backendFailure (msg : String)
deriving DecidableEq, Repr

/-- Everything observable about one `MultiAccountGeminiClient.stream` call: the
fragments yielded to the caller (in order, across all attempts), the terminal
condition, the ledger table afterwards, `_current_account_id` afterwards, the number
of `_get_next_account` calls (credential bind attempts), and the call logs of
`mark_account_error` and `increment_usage`. -/
structure RunResult where
  chunks : List String
  outcome : Outcome
  db : List Account
  cur : Option Int
  binds : Nat
  marked : List Int
  increments : List Int

/-- Per-run configuration of the rotating client: the stream behaviour of attempt
`n`, the owner (`user_id`), and the current calendar day. -/
structure RunCfg where
  oracle : Nat → AttemptResult
  uid : Int
  today : Nat

/-- One result of `MultiAccountGeminiClient._get_next_account` (gemini_client.py
lines 135-150). Note the source sets `_current_account_id` before checking the key,
so `noKey` also reports the id the client is left bound to. -/
inductive BindResult where
  | noAccount (db : List Account)
  | noKey (accountName : String) (accId : Int) (db : List Account)
  | bound (accId : Int) (db : List Account)

/-- `MultiAccountGeminiClient._get_next_account` (gemini_client.py lines 135-150):
asks `get_best_account` (whose day-rollover reset is committed either way), raises
`ValueError` when no account qualifies or the chosen account has no secret. -/
def get_next_account (uid : Int) (today : Nat) (db : List Account) : BindResult :=
  match get_best_account uid today db with
  | (none, db') => .noAccount db'
  | (some acc, db') =>
      if account_key acc = "" then .noKey acc.name acc.id db'
      else .bound acc.id db'

/-- The `for attempt in range(max_retries)` loop of `MultiAccountGeminiClient.stream`
(gemini_client.py lines 198-210), with `remaining = max_retries - attemptIdx` loop
iterations left. On `QuotaExceededError` with `attempt < max_retries - 1` (that is,
`remaining > 1`) the current account is marked exhausted (when `_current_account_id`
is truthy) and `_get_next_account` rebinds; on the last attempt the error is
re-raised. A normally completed stream calls `_on_success`, which increments usage
only when `_current_account_id` is truthy. The never-reached fall-through of the
loop (possible only when called with `remaining = 0`) ends the generator normally. -/
def run_attempts (cfg : RunCfg) :
    Nat → Nat → Int → List Account → List String → Nat → List Int → List Int → RunResult
  | 0, _, cur, db, chunks, binds, marked, incs =>
      ⟨chunks, .success, db, some cur, binds, marked, incs⟩
  | Nat.succ r, attemptIdx, cur, db, chunks, binds, marked, incs =>
      match cfg.oracle attemptIdx with
      | .ok cs =>
          if cur = 0 then ⟨chunks ++ cs, .success, db, some cur, binds, marked, incs⟩
          else ⟨chunks ++ cs, .success, increment_usage cur db, some cur, binds, marked,
                incs ++ [cur]⟩
      | .otherErr cs msg =>
          ⟨chunks ++ cs, .backendFailure msg, db, some cur, binds, marked, incs⟩
      | .quotaErr cs =>
          if r = 0 then ⟨chunks ++ cs, .quotaExceeded, db, some cur, binds, marked, incs⟩
          else
            match get_next_account cfg.uid cfg.today
                (if cur = 0 then db else mark_account_error cur "429" db) with
            | .noAccount db2 =>
                ⟨chunks ++ cs, .noQuota, db2, some cur, binds + 1,
                 if cur = 0 then marked else marked ++ [cur], incs⟩
            | .noKey nm accId db2 =>
                ⟨chunks ++ cs, .noApiKey nm, db2, some accId, binds + 1,
                 if cur = 0 then marked else marked ++ [cur], incs⟩
            | .bound accId db2 =>
                run_attempts cfg r (attemptIdx + 1) accId db2 (chunks ++ cs) (binds + 1)
                  (if cur = 0 then marked else marked ++ [cur]) incs

/-- Entry of `MultiAccountGeminiClient.stream` when `_current_account_id` is falsy
(gemini_client.py lines 195-196): bind first, then run the attempt loop. -/
def run_bind_first (cfg : RunCfg) (maxRetries : Nat) (cur0 : Option Int)
    (db : List Account) : RunResult :=
  match get_next_account cfg.uid cfg.today db with
  | .noAccount db' => ⟨[], .noQuota, db', cur0, 1, [], []⟩
  | .noKey nm accId db' => ⟨[], .noApiKey nm, db', some accId, 1, [], []⟩
  | .bound accId db' => run_attempts cfg maxRetries 0 accId db' [] 1 [] []

/-- `MultiAccountGeminiClient.stream` (gemini_client.py lines 191-210) for one
logical request: `cur0` is the inherited `_current_account_id` (Python truthiness:
`None` and `0` both trigger the initial bind). -/
def run_stream (cfg : RunCfg) (maxRetries : Nat) (cur0 : Option Int)
    (db : List Account) : RunResult :=
  match cur0 with
  | none => run_bind_first cfg maxRetries none db
  | some c =>
      if c = 0 then run_bind_first cfg maxRetries (some c) db
      else run_attempts cfg maxRetries 0 c db [] 0 [] []

/-- One JSON event sent over the websocket by chat.py. -/
inductive Event where
  | start (contextUsed : Nat) (traceId : String)
  | chunk (content : String) (traceId : String)
  | error (content : String) (traceId : String)
  | done (fullText : String) (traceId : String)
deriving DecidableEq, Repr

/-- Message of the `ValueError` raised at gemini_client.py line 141. -/
def no_quota_msg : String :=
  "No AI accounts with available quota. Add more accounts or wait for quota reset."

/-- Message of the `ValueError` raised at gemini_client.py line 147. -/
def no_api_key_msg (accountName : String) : String :=
  "Account " ++ accountName ++ " has no API key configured."

/-- Error event content sent by chat.py lines 109-114 on `QuotaExceededError`. -/
def quota_error_event_msg : String :=
  "All API accounts have exceeded their quota. Please add more accounts or wait for quota reset."

/-- Error event content sent by chat.py lines 116-121 on any other exception. -/
def gen_error_msg (m : String) : String :=
  "AI generation error: " ++ m

/-- Everything observable about the handling of one inbound prompt by the websocket
loop of chat.py: the events sent, the ledger table afterwards, the client's bound
account afterwards, whether the loop keeps listening, whether the memory store was
consulted for context, whether the rotating generation call was made, and the
`(prompt, full_response)` pairs persisted. -/
structure StepResult where
  events : List Event
  db : List Account
  cur : Option Int
  stayOpen : Bool
  contextFetched : Bool
  generationInvoked : Bool
  memoryWrites : List (String × String)
deriving DecidableEq, Repr

/-- One iteration of the `while True` loop of `websocket_endpoint` (chat.py lines
68-132) for an authenticated user and a non-empty prompt. `storeCtx` is the list of
context strings the memory collaborator would return for this prompt; `traceId` is
the fresh uuid generated at line 77. The security check runs first; when it fails
only an error event is emitted and the loop continues. Otherwise context is
fetched, a start event is emitted, the rotating stream is driven (each fragment
forwarded as a chunk event and accumulated), and the terminal event is `done` plus a
memory write on success, the fixed quota message on `QuotaExceededError`, or the
generic generation-error message on any other exception. -/
def handle_message (cfg : RunCfg) (storeCtx : List String) (prompt traceId : String)
    (cur0 : Option Int) (db : List Account) : StepResult :=
  match analyze_prompt prompt with
  | (false, reason) =>
      { events := [.error (reason.getD "") traceId], db := db, cur := cur0,
        stayOpen := true, contextFetched := false, generationInvoked := false,
        memoryWrites := [] }
  | (true, _) =>
      let r := run_stream cfg 3 cur0 db
      let startEv := Event.start storeCtx.length traceId
      let chunkEvs := r.chunks.map (fun c => Event.chunk c traceId)
      match r.outcome with
      | .success =>
          let full := String.join r.chunks
          { events := [startEv] ++ chunkEvs ++ [.done full traceId], db := r.db,
            cur := r.cur, stayOpen := true, contextFetched := true,
            generationInvoked := true, memoryWrites := [(prompt, full)] }
      | .quotaExceeded =>
          { events := [startEv] ++ chunkEvs ++ [.error quota_error_event_msg traceId],
            db := r.db, cur := r.cur, stayOpen := true, contextFetched := true,
            generationInvoked := true, memoryWrites := [] }
      | .noQuota =>
          { events := [startEv] ++ chunkEvs ++ [.error (gen_error_msg no_quota_msg) traceId],
            db := r.db, cur := r.cur, stayOpen := true, contextFetched := true,
            generationInvoked := true, memoryWrites := [] }
      | .noApiKey nm =>
          { events := [startEv] ++ chunkEvs ++
              [.error (gen_error_msg (no_api_key_msg nm)) traceId],
            db := r.db, cur := r.cur, stayOpen := true, contextFetched := true,
            generationInvoked := true, memoryWrites := [] }
      | .backendFailure m =>
          { events := [startEv] ++ chunkEvs ++ [.error (gen_error_msg m) traceId],
            db := r.db, cur := r.cur, stayOpen := true, contextFetched := true,
            generationInvoked := true, memoryWrites := [] }

/-- Concrete account: almost exhausted but still eligible. -/
def w3_a1 : Account :=
  { id := 1, user_id := 7, name := "one", token := "", api_key := "k1",
    daily_limit := 10, daily_used := 9, last_reset := 3, is_active := true }

/-- Concrete account: the one with the most remaining quota. -/
def w3_a2 : Account :=
  { id := 2, user_id := 7, name := "two", token := "", api_key := "k2",
    daily_limit := 10, daily_used := 2, last_reset := 3, is_active := true }

/-- Concrete account: inactive, hence never selectable. -/
def w3_a3 : Account :=
  { id := 3, user_id := 7, name := "three", token := "", api_key := "k3",
    daily_limit := 10, daily_used := 0, last_reset := 3, is_active := false }

/-- Concrete account to be marked exhausted. -/
def w5_a1 : Account :=
  { id := 1, user_id := 7, name := "one", token := "", api_key := "k1",
    daily_limit := 10, daily_used := 0, last_reset := 3, is_active := true }

/-- Concrete fallback account for the post-exhaustion selection. -/
def w5_a2 : Account :=
  { id := 2, user_id := 7, name := "two", token := "", api_key := "k2",
    daily_limit := 10, daily_used := 5, last_reset := 3, is_active := true }

/-- Concrete stale account: its stored reset day 0 is strictly before day 1. -/
def c6_acc : Account :=
  { id := 1, user_id := 7, name := "stale", token := "", api_key := "k",
    daily_limit := 10, daily_used := 5, last_reset := 0, is_active := true }

/-- Concrete eligible account for the retry-budget runs. -/
def c1_acc : Account :=
  { id := 1, user_id := 7, name := "one", token := "", api_key := "k",
    daily_limit := 2, daily_used := 0, last_reset := 3, is_active := true }

/-- Run configuration whose stream raises QuotaExceeded on every attempt. -/
def c1_cfg : RunCfg :=
  { oracle := fun _ => .quotaErr [], uid := 7, today := 3 }

/-- Concrete eligible account for the success-accounting run. -/
def c4w_acc : Account :=
  { id := 1, user_id := 7, name := "one", token := "", api_key := "k",
    daily_limit := 2, daily_used := 0, last_reset := 3, is_active := true }

/-- Run configuration whose stream completes normally on every attempt. -/
def c4w_cfg : RunCfg :=
  { oracle := fun _ => .ok ["hi"], uid := 7, today := 3 }

/-- Concrete account that is exhausted and stale: its quota is used up and its
stored reset day 0 is strictly before the run's day 1. -/
def c4x_acc : Account :=
  { id := 1, user_id := 7, name := "one", token := "", api_key := "k",
    daily_limit := 2, daily_used := 2, last_reset := 0, is_active := true }

/-- Run configuration whose stream raises QuotaExceeded on the first attempt and
completes normally on every later attempt. -/
def c4x_cfg : RunCfg :=
  { oracle := fun n => if n = 0 then .quotaErr [] else .ok ["x"], uid := 7, today := 1 }

/-- Run configuration used with an empty credential table. -/
def c7w_cfg : RunCfg :=
  { oracle := fun _ => .quotaErr [], uid := 7, today := 3 }

/-- Run configuration for the blocked-prompt step (its oracle is never consulted). -/
def c8w_cfg : RunCfg :=
  { oracle := fun _ => .ok [], uid := 7, today := 3 }

/-- A 10001-character prompt consisting only of the letter a. -/
def c10_prompt : String := String.mk (List.replicate 10001 'a')

/-- Run configuration for the over-long-prompt step (its oracle is never consulted). -/
def c10w_cfg : RunCfg :=
  { oracle := fun _ => .ok [], uid := 7, today := 3 }

theorem foldl_pick_better_isSome (l : List Account) (b : Account) :
    ∃ r, l.foldl pick_better (some b) = some r := by
  induction l generalizing b with
  | nil => exact ⟨b, rfl⟩
  | cons a l ih =>
      rw [List.foldl_cons,
        show pick_better (some b) a = some (if remaining b < remaining a then a else b) by
          simp only [pick_better]; split <;> rfl]
      exact ih _

theorem foldl_pick_better_none (l : List Account) (h : l.foldl pick_better none = none) :
    l = [] := by
  cases l with
  | nil => rfl
  | cons a l =>
      rw [List.foldl_cons, show pick_better none a = some a from rfl] at h
      obtain ⟨r, hr⟩ := foldl_pick_better_isSome l a
      rw [hr] at h
      cases h

theorem foldl_pick_better_mem (l : List Account) :
    ∀ (init : Option Account) (r : Account),
      l.foldl pick_better init = some r → init = some r ∨ r ∈ l := by
  induction l with
  | nil => intro init r h; exact Or.inl h
  | cons a l ih =>
      intro init r h
      rw [List.foldl_cons] at h
      rcases ih (pick_better init a) r h with h' | h'
      · cases init with
        | none =>
            simp only [pick_better] at h'
            exact Or.inr (by cases h'; exact List.mem_cons_self a l)
        | some b =>
            simp only [pick_better] at h'
            split at h'
            · cases h'; exact Or.inr (List.mem_cons_self a l)
            · exact Or.inl h'
      · exact Or.inr (List.mem_cons_of_mem a h')

theorem foldl_pick_better_le (l : List Account) :
    ∀ (init : Option Account) (r : Account),
      l.foldl pick_better init = some r →
        (∀ a ∈ l, remaining a ≤ remaining r) ∧
        (∀ b, init = some b → remaining b ≤ remaining r) := by
  induction l with
  | nil =>
      intro init r h
      refine ⟨by simp, fun b hb => ?_⟩
      rw [hb] at h; cases h; exact le_refl _
  | cons a l ih =>
      intro init r h
      rw [List.foldl_cons] at h
      obtain ⟨h1, h2⟩ := ih (pick_better init a) r h
      have hstep : remaining a ≤ remaining r := by
        cases init with
        | none => exact h2 a rfl
        | some b =>
            simp only [pick_better] at h2
            by_cases hba : remaining b < remaining a
            · exact h2 a (by rw [if_pos hba])
            · exact le_trans (not_lt.mp hba) (h2 b (by rw [if_neg hba]))
      refine ⟨fun x hx => ?_, fun b hb => ?_⟩
      · rcases List.mem_cons.mp hx with rfl | hx
        · exact hstep
        · exact h1 x hx
      · subst hb
        simp only [pick_better] at h2
        by_cases hba : remaining b < remaining a
        · exact le_trans (le_of_lt hba) (h2 a (by rw [if_pos hba]))
        · exact h2 b (by rw [if_neg hba])

theorem qualifies_iff (uid : Int) (a : Account) :
    qualifies uid a = true ↔
      a.user_id = uid ∧ a.is_active = true ∧ 0 < a.daily_limit - a.daily_used := by
  simp [qualifies, and_assoc]

theorem get_best_some_facts (uid : Int) (today : Nat) (db : List Account)
    (r : Account) (db' : List Account)
    (h : get_best_account uid today db = (some r, db')) :
    db' = reset_daily_quotas_if_needed today db ∧ r ∈ db' ∧ qualifies uid r = true ∧
      ∀ a ∈ db', qualifies uid a = true → remaining a ≤ remaining r := by
  unfold get_best_account at h
  obtain ⟨hp, hdb⟩ := Prod.mk.injEq .. ▸ h
  subst hdb
  have hmem := foldl_pick_better_mem _ none r hp
  rcases hmem with h' | h'
  · cases h'
  · have hq := (List.mem_filter.mp h').2
    have hm := (List.mem_filter.mp h').1
    refine ⟨rfl, hm, hq, fun a ha hqa => ?_⟩
    exact (foldl_pick_better_le _ none r hp).1 a (List.mem_filter.mpr ⟨ha, hqa⟩)

theorem get_best_none_facts (uid : Int) (today : Nat) (db : List Account)
    (db' : List Account)
    (h : get_best_account uid today db = (none, db')) :
    db' = reset_daily_quotas_if_needed today db ∧
      ∀ a ∈ db', qualifies uid a = false := by
  unfold get_best_account at h
  obtain ⟨hp, hdb⟩ := Prod.mk.injEq .. ▸ h
  subst hdb
  have hnil := foldl_pick_better_none _ hp
  refine ⟨rfl, fun a ha => ?_⟩
  by_contra hq
  have : a ∈ (reset_daily_quotas_if_needed today db).filter (fun a => qualifies uid a) :=
    List.mem_filter.mpr ⟨ha, Bool.not_eq_false _ ▸ hq⟩
  rw [hnil] at this
  cases this

theorem reset_one_id (today : Nat) (a : Account) : (reset_one today a).id = a.id := by
  unfold reset_one; split <;> rfl

theorem mark_one_id (cid : Int) (a : Account) : (mark_one cid a).id = a.id := by
  unfold mark_one; split <;> rfl

theorem mark_one_last_reset (cid : Int) (a : Account) :
    (mark_one cid a).last_reset = a.last_reset := by
  unfold mark_one; split <;> rfl

theorem mark_one_key (cid : Int) (a : Account) :
    account_key (mark_one cid a) = account_key a := by
  unfold mark_one account_key; split <;> rfl

theorem reset_one_key (today : Nat) (a : Account) :
    account_key (reset_one today a) = account_key a := by
  unfold reset_one account_key; split <;> rfl

theorem reset_one_of_today (today : Nat) (a : Account) (h : a.last_reset = today) :
    reset_one today a = a := by
  unfold reset_one
  rw [h, if_neg (Nat.lt_irrefl today)]

theorem reset_daily_of_today (today : Nat) (db : List Account)
    (h : ∀ a ∈ db, a.last_reset = today) :
    reset_daily_quotas_if_needed today db = db := by
  unfold reset_daily_quotas_if_needed
  induction db with
  | nil => rfl
  | cons a l ih =>
      rw [List.map_cons, reset_one_of_today today a (h a (List.mem_cons_self a l)),
        ih (fun x hx => h x (List.mem_cons_of_mem a hx))]

theorem mark_day_preserved (cid : Int) (et : String) (today : Nat) (db : List Account)
    (h : ∀ a ∈ db, a.last_reset = today) :
    ∀ a ∈ mark_account_error cid et db, a.last_reset = today := by
  intro a ha
  unfold mark_account_error at ha
  split at ha
  · obtain ⟨a0, ha0, rfl⟩ := List.mem_map.mp ha
    rw [mark_one_last_reset]; exact h a0 ha0
  · exact h a ha

theorem mark_key_preserved (cid : Int) (et : String) (db : List Account)
    (h : ∀ a ∈ db, account_key a ≠ "") :
    ∀ a ∈ mark_account_error cid et db, account_key a ≠ "" := by
  intro a ha
  unfold mark_account_error at ha
  split at ha
  · obtain ⟨a0, ha0, rfl⟩ := List.mem_map.mp ha
    rw [mark_one_key]; exact h a0 ha0
  · exact h a ha

theorem reset_key_preserved (today : Nat) (db : List Account)
    (h : ∀ a ∈ db, account_key a ≠ "") :
    ∀ a ∈ reset_daily_quotas_if_needed today db, account_key a ≠ "" := by
  intro a ha
  obtain ⟨a0, ha0, rfl⟩ := List.mem_map.mp ha
  rw [reset_one_key]; exact h a0 ha0

theorem mark_id_preserved (cid : Int) (et : String) (db : List Account)
    (h : ∀ a ∈ db, a.id ≠ 0) :
    ∀ a ∈ mark_account_error cid et db, a.id ≠ 0 := by
  intro a ha
  unfold mark_account_error at ha
  split at ha
  · obtain ⟨a0, ha0, rfl⟩ := List.mem_map.mp ha
    rw [mark_one_id]; exact h a0 ha0
  · exact h a ha

theorem reset_id_preserved (today : Nat) (db : List Account)
    (h : ∀ a ∈ db, a.id ≠ 0) :
    ∀ a ∈ reset_daily_quotas_if_needed today db, a.id ≠ 0 := by
  intro a ha
  obtain ⟨a0, ha0, rfl⟩ := List.mem_map.mp ha
  rw [reset_one_id]; exact h a0 ha0

theorem mark_account_error_sets (cid : Int) (db : List Account) :
    ∀ a ∈ mark_account_error cid "429" db, a.id = cid → a.daily_used = a.daily_limit := by
  intro a ha hid
  unfold mark_account_error at ha
  rw [if_pos rfl] at ha
  obtain ⟨a0, ha0, rfl⟩ := List.mem_map.mp ha
  unfold mark_one at hid ⊢
  by_cases h0 : a0.id = cid
  · rw [if_pos h0]
  · rw [if_neg h0] at hid; exact absurd hid h0

theorem mark_marked_invariant (cid : Int) (db : List Account) (marked : List Int)
    (hinv : ∀ a ∈ db, a.id ∈ marked → a.daily_used = a.daily_limit) :
    ∀ a ∈ mark_account_error cid "429" db,
      a.id ∈ marked ++ [cid] → a.daily_used = a.daily_limit := by
  intro a ha hid
  unfold mark_account_error at ha
  rw [if_pos rfl] at ha
  obtain ⟨a0, ha0, rfl⟩ := List.mem_map.mp ha
  unfold mark_one
  by_cases h0 : a0.id = cid
  · rw [if_pos h0]
  · rw [if_neg h0]
    rw [show mark_one cid a0 = a0 by unfold mark_one; rw [if_neg h0]] at hid
    rcases List.mem_append.mp hid with h' | h'
    · exact hinv a0 ha0 h'
    · exact absurd (List.mem_singleton.mp h') h0

theorem get_next_bound_facts (uid : Int) (today : Nat) (db : List Account)
    (accId : Int) (db2 : List Account)
    (h : get_next_account uid today db = .bound accId db2) :
    db2 = reset_daily_quotas_if_needed today db ∧
      ∃ acc, acc ∈ db2 ∧ qualifies uid acc = true ∧ acc.id = accId ∧
        account_key acc ≠ "" := by
  unfold get_next_account at h
  rcases hg : get_best_account uid today db with ⟨o, db'⟩
  rw [hg] at h
  cases o with
  | none => cases h
  | some acc =>
      dsimp only at h
      by_cases hk : account_key acc = ""
      · rw [if_pos hk] at h; cases h
      · rw [if_neg hk] at h
        injection h with h1 h2
        subst h1; subst h2
        obtain ⟨hdb, hmem, hq, _⟩ := get_best_some_facts uid today db acc db' hg
        exact ⟨hdb, acc, hmem, hq, rfl, hk⟩

theorem get_next_no_account_facts (uid : Int) (today : Nat) (db : List Account)
    (db2 : List Account)
    (h : get_next_account uid today db = .noAccount db2) :
    db2 = reset_daily_quotas_if_needed today db ∧
      ∀ a ∈ db2, qualifies uid a = false := by
  unfold get_next_account at h
  rcases hg : get_best_account uid today db with ⟨o, db'⟩
  rw [hg] at h
  cases o with
  | none =>
      dsimp only at h
      injection h with h1
      subst h1
      exact get_best_none_facts uid today db db' hg
  | some acc =>
      dsimp only at h
      by_cases hk : account_key acc = ""
      · rw [if_pos hk] at h; cases h
      · rw [if_neg hk] at h; cases h

theorem get_next_no_key_facts (uid : Int) (today : Nat) (db : List Account)
    (nm : String) (accId : Int) (db2 : List Account)
    (h : get_next_account uid today db = .noKey nm accId db2) :
    db2 = reset_daily_quotas_if_needed today db ∧
      ∃ acc, acc ∈ db2 ∧ account_key acc = "" ∧ acc.id = accId := by
  unfold get_next_account at h
  rcases hg : get_best_account uid today db with ⟨o, db'⟩
  rw [hg] at h
  cases o with
  | none => cases h
  | some acc =>
      dsimp only at h
      by_cases hk : account_key acc = ""
      · rw [if_pos hk] at h
        injection h with h1 h2 h3
        subst h1; subst h2; subst h3
        obtain ⟨hdb, hmem, _, _⟩ := get_best_some_facts uid today db acc db' hg
        exact ⟨hdb, acc, hmem, hk, rfl⟩
      · rw [if_neg hk] at h; cases h

theorem run_attempts_quota (cfg : RunCfg)
    (hq : ∀ n, ∃ cs, cfg.oracle n = AttemptResult.quotaErr cs) :
    ∀ (remaining attemptIdx : Nat) (cur : Int) (db : List Account)
      (chunks : List String) (binds : Nat) (marked incs : List Int),
      0 < remaining →
      (∀ a ∈ db, account_key a ≠ "") →
      (run_attempts cfg remaining attemptIdx cur db chunks binds marked incs).binds ≤
          binds + (remaining - 1) ∧
        ((run_attempts cfg remaining attemptIdx cur db chunks binds marked incs).outcome =
            Outcome.quotaExceeded ∨
          (run_attempts cfg remaining attemptIdx cur db chunks binds marked incs).outcome =
            Outcome.noQuota) ∧
        (run_attempts cfg remaining attemptIdx cur db chunks binds marked incs).increments =
          incs := by
  intro remaining
  induction remaining with
  | zero => intro _ _ _ _ _ _ _ h0 _; exact absurd h0 (Nat.lt_irrefl 0)
  | succ r ih =>
      intro attemptIdx cur db chunks binds marked incs _ hkeys
      obtain ⟨cs, ho⟩ := hq attemptIdx
      by_cases hr : r = 0
      · subst hr
        simp only [run_attempts, ho, eq_self_iff_true, if_true, ite_true]
        refine ⟨by omega, Or.inl ?_, ?_⟩ <;> simp
      · have hr1 : 0 < r := Nat.pos_of_ne_zero hr
        simp only [run_attempts, ho, if_neg hr]
        have hkeys1 : ∀ a ∈ (if cur = 0 then db else mark_account_error cur "429" db),
            account_key a ≠ "" := by
          split
          · exact hkeys
          · exact mark_key_preserved _ _ _ hkeys
        rcases hb : get_next_account cfg.uid cfg.today
            (if cur = 0 then db else mark_account_error cur "429" db) with
          db2 | ⟨nm, accId, db2⟩ | ⟨accId, db2⟩
        · exact ⟨by dsimp only; omega, Or.inr rfl, rfl⟩
        · exfalso
          obtain ⟨hdb2, acc, hmem, hk, _⟩ :=
            get_next_no_key_facts cfg.uid cfg.today _ nm accId db2 hb
          exact reset_key_preserved cfg.today _ hkeys1 acc (hdb2 ▸ hmem) hk
        · have hkeys2 : ∀ a ∈ db2, account_key a ≠ "" := by
            obtain ⟨hdb2, _⟩ := get_next_bound_facts cfg.uid cfg.today _ accId db2 hb
            rw [hdb2]
            exact reset_key_preserved cfg.today _ hkeys1
          obtain ⟨ha, hb', hc⟩ := ih (attemptIdx + 1) accId db2 (chunks ++ cs) (binds + 1)
            (if cur = 0 then marked else marked ++ [cur]) incs hr1 hkeys2
          exact ⟨by dsimp only; omega, hb', hc⟩

theorem run_attempts_success (cfg : RunCfg) :
    ∀ (remaining attemptIdx : Nat) (cur : Int) (db : List Account)
      (chunks : List String) (binds : Nat) (marked incs : List Int),
      0 < remaining →
      (∀ a ∈ db, a.last_reset = cfg.today) →
      (∀ a ∈ db, a.id ≠ 0) →
      cur ≠ 0 →
      cur ∉ marked →
      (∀ a ∈ db, a.id ∈ marked → a.daily_used = a.daily_limit) →
      (run_attempts cfg remaining attemptIdx cur db chunks binds marked incs).outcome =
        Outcome.success →
      ∃ a dbMid,
        (run_attempts cfg remaining attemptIdx cur db chunks binds marked incs).cur =
            some a ∧
          (run_attempts cfg remaining attemptIdx cur db chunks binds marked incs).increments =
            incs ++ [a] ∧
          a ∉ (run_attempts cfg remaining attemptIdx cur db chunks binds marked incs).marked ∧
          (run_attempts cfg remaining attemptIdx cur db chunks binds marked incs).db =
            increment_usage a dbMid := by
  intro remaining
  induction remaining with
  | zero => intro _ _ _ _ _ _ _ h0; exact absurd h0 (Nat.lt_irrefl 0)
  | succ r ih =>
      intro attemptIdx cur db chunks binds marked incs _ hday hid hcur hcurm hmarked
      cases ho : cfg.oracle attemptIdx with
      | ok cs =>
          simp only [run_attempts, ho, if_neg hcur]
          intro _
          exact ⟨cur, db, rfl, rfl, hcurm, rfl⟩
      | otherErr cs msg =>
          simp only [run_attempts, ho]
          intro h; exact Outcome.noConfusion h
      | quotaErr cs =>
          by_cases hr : r = 0
          · subst hr
            simp only [run_attempts, ho, eq_self_iff_true, if_true, ite_true]
            intro h; exact Outcome.noConfusion h
          · simp only [run_attempts, ho, if_neg hr, if_neg hcur]
            have hr1 : 0 < r := Nat.pos_of_ne_zero hr
            have hday1 : ∀ a ∈ mark_account_error cur "429" db, a.last_reset = cfg.today :=
              mark_day_preserved cur "429" cfg.today db hday
            rcases hb : get_next_account cfg.uid cfg.today
                (mark_account_error cur "429" db) with
              db2 | ⟨nm, accId, db2⟩ | ⟨accId, db2⟩
            · intro h; exact Outcome.noConfusion h
            · intro h; exact Outcome.noConfusion h
            · obtain ⟨hdb2, acc, hmem, hqual, hacc, _⟩ :=
                get_next_bound_facts cfg.uid cfg.today _ accId db2 hb
              have hdb2' : db2 = mark_account_error cur "429" db := by
                rw [hdb2, reset_daily_of_today cfg.today _ hday1]
              have hday2 : ∀ a ∈ db2, a.last_reset = cfg.today := by
                rw [hdb2']; exact hday1
              have hid2 : ∀ a ∈ db2, a.id ≠ 0 := by
                rw [hdb2']; exact mark_id_preserved cur "429" db hid
              have hinv2 : ∀ a ∈ db2, a.id ∈ marked ++ [cur] →
                  a.daily_used = a.daily_limit := by
                rw [hdb2']; exact mark_marked_invariant cur db marked hmarked
              have haccId : accId ∉ marked ++ [cur] := by
                intro hin
                have hused := hinv2 acc hmem (hacc ▸ hin)
                have hrem := (qualifies_iff cfg.uid acc).mp hqual
                omega
              have haccId0 : accId ≠ 0 := hacc ▸ hid2 acc hmem
              exact ih (attemptIdx + 1) accId db2 (chunks ++ cs) (binds + 1)
                (marked ++ [cur]) incs hr1 hday2 hid2 haccId0 haccId hinv2

theorem starts_chars_subset :
    ∀ (p t : List Char), starts_chars p t = true → ∀ c ∈ p, c ∈ t := by
  intro p
  induction p with
  | nil => intro t _ c hc; cases hc
  | cons a p ih =>
      intro t h c hc
      cases t with
      | nil => cases h
      | cons d ds =>
          simp only [starts_chars, Bool.and_eq_true, beq_iff_eq] at h
          rcases List.mem_cons.mp hc with rfl | hc'
          · exact h.1 ▸ List.mem_cons_self d ds
          · exact List.mem_cons_of_mem d (ih ds h.2 c hc')

theorem contains_chars_subset :
    ∀ (t p : List Char), contains_chars p t = true → ∀ c ∈ p, c ∈ t := by
  intro t
  induction t with
  | nil =>
      intro p h c hc
      cases p with
      | nil => cases hc
      | cons a p => cases h
  | cons d ds ih =>
      intro p h c hc
      simp only [contains_chars, Bool.or_eq_true] at h
      rcases h with h | h
      · exact starts_chars_subset p (d :: ds) h c hc
      · exact List.mem_cons_of_mem d (ih p h c hc)

theorem contains_chars_replicate_false (p : List Char) (n : Nat) (c d : Char)
    (hd : d ∈ p) (hne : d ≠ c) :
    contains_chars p (List.replicate n c) = false := by
  cases hh : contains_chars p (List.replicate n c) with
  | false => rfl
  | true =>
      exfalso
      have := contains_chars_subset (List.replicate n c) p hh d hd
      exact hne (List.eq_of_mem_replicate this)

theorem c10_prompt_long : 10000 < c10_prompt.length := by
  show 10000 < (List.replicate 10001 'a').length
  rw [List.length_replicate]
  omega

theorem c10_lower : py_lower c10_prompt = String.mk (List.replicate 10001 'a') := by
  show String.mk ((List.replicate 10001 'a').map Char.toLower) =
    String.mk (List.replicate 10001 'a')
  rw [List.map_replicate, show Char.toLower 'a' = 'a' from by decide]

theorem find_risk_cons_false (lower : String) (alts : List String) (nm : String)
    (rest : List (List String × String))
    (h : alts.any (fun pat => py_contains lower pat) = false) :
    find_risk lower ((alts, nm) :: rest) = find_risk lower rest := by
  simp [find_risk, h]

theorem c10_no_risk : find_risk (py_lower c10_prompt) risk_patterns = none := by
  rw [c10_lower]
  have hfalse : ∀ (p : String) (d : Char), d ∈ p.data → d ≠ 'a' →
      py_contains (String.mk (List.replicate 10001 'a')) p = false := by
    intro p d hd hne
    show contains_chars p.data (List.replicate 10001 'a') = false
    exact contains_chars_replicate_false p.data 10001 'a' d hd hne
  have h1 := hfalse "ignore previous instructions" 'i' (by decide) (by decide)
  have h2a := hfalse "you are now DAN" 'y' (by decide) (by decide)
  have h2b := hfalse "you are now do anything now" 'y' (by decide) (by decide)
  have h3 := hfalse "system override" 's' (by decide) (by decide)
  have h4 := hfalse "delete all files" 'd' (by decide) (by decide)
  have h5 := hfalse "rm -rf" 'r' (by decide) (by decide)
  have h6 := hfalse "/etc/shadow" '/' (by decide) (by decide)
  simp only [risk_patterns]
  rw [find_risk_cons_false _ _ _ _ (by simp only [List.any_cons, List.any_nil, h1, Bool.or_false]),
    find_risk_cons_false _ _ _ _
      (by simp only [List.any_cons, List.any_nil, h2a, h2b, Bool.or_false]),
    find_risk_cons_false _ _ _ _ (by simp only [List.any_cons, List.any_nil, h3, Bool.or_false]),
    find_risk_cons_false _ _ _ _ (by simp only [List.any_cons, List.any_nil, h4, Bool.or_false]),
    find_risk_cons_false _ _ _ _ (by simp only [List.any_cons, List.any_nil, h5, Bool.or_false]),
    find_risk_cons_false _ _ _ _ (by simp only [List.any_cons, List.any_nil, h6, Bool.or_false])]
  rfl

/-- C9: for every prompt and every context list, `generate` and `stream` build the
same effective prompt; with an empty (or absent) context the prompt is unchanged;
with a non-empty context at most the last 5 context entries are prepended verbatim
(a suffix of the context list), separated by newlines, under the fixed
"Previous context:" / "User:" framing. -/
theorem c9_prompt_construction (prompt : String) (context : List String) :
    generate_full_prompt prompt context = stream_full_prompt prompt context ∧
    generate_full_prompt prompt [] = prompt ∧
    (context ≠ [] →
      generate_full_prompt prompt context =
        "Previous context:\n" ++ String.intercalate "\n" (lastN 5 context) ++
          "\n\nUser: " ++ prompt ∧
      (lastN 5 context).length ≤ 5 ∧
      context.take (context.length - 5) ++ lastN 5 context = context) := by
  refine ⟨rfl, rfl, fun hne => ⟨?_, ?_, ?_⟩⟩
  · have hf : context.isEmpty = false := by
      cases context with
      | nil => exact absurd rfl hne
      | cons a l => rfl
    unfold generate_full_prompt
    rw [hf]
    rfl
  · unfold lastN
    rw [List.length_drop]
    omega
  · exact List.take_append_drop _ _

/-- C9 witness: a concrete two-entry context, instantiating the construction law. -/
theorem c9_prompt_construction_witness :
    generate_full_prompt "hi" ["a", "b"] = stream_full_prompt "hi" ["a", "b"] ∧
    generate_full_prompt "hi" ["a", "b"] =
      "Previous context:\n" ++ String.intercalate "\n" (lastN 5 ["a", "b"]) ++
        "\n\nUser: " ++ "hi" ∧
    (lastN 5 ["a", "b"]).length ≤ 5 := by
  obtain ⟨h1, _, h3⟩ := c9_prompt_construction "hi" ["a", "b"]
  obtain ⟨ha, hb, _⟩ := h3 (by simp)
  exact ⟨h1, ha, hb⟩

/-- C2 (amended): both `generate` and `stream` classify a failure identically: the
failure is surfaced as QuotaExceeded exactly when its message, lowercased, contains
one of the indicators "429", "quota", "rate", "resource_exhausted" (the source
matches the underscore spelling, not "resource exhausted" with a space), and is
re-raised unchanged as a generic failure otherwise. -/
theorem c2_error_classification (msg : String) :
    stream_error_surface msg = generate_error_surface msg ∧
    (generate_error_surface msg = GenFailure.quotaExceeded msg ↔
      (py_contains (py_lower msg) "429" = true ∨
        py_contains (py_lower msg) "quota" = true ∨
        py_contains (py_lower msg) "rate" = true ∨
        py_contains (py_lower msg) "resource_exhausted" = true)) ∧
    (generate_error_surface msg = GenFailure.generic msg ↔
      ¬(py_contains (py_lower msg) "429" = true ∨
        py_contains (py_lower msg) "quota" = true ∨
        py_contains (py_lower msg) "rate" = true ∨
        py_contains (py_lower msg) "resource_exhausted" = true)) := by
  have hexp : quota_indicator (py_lower msg) = true ↔
      (py_contains (py_lower msg) "429" = true ∨
        py_contains (py_lower msg) "quota" = true ∨
        py_contains (py_lower msg) "rate" = true ∨
        py_contains (py_lower msg) "resource_exhausted" = true) := by
    simp [quota_indicator, Bool.or_eq_true, or_assoc]
  refine ⟨rfl, ?_, ?_⟩ <;> unfold generate_error_surface <;>
    by_cases hq : quota_indicator (py_lower msg) = true
  · rw [if_pos hq]
    exact iff_of_true rfl (hexp.mp hq)
  · rw [if_neg hq]
    exact iff_of_false (by simp) (fun hd => hq (hexp.mpr hd))
  · rw [if_pos hq]
    exact iff_of_false (by simp) (fun hn => hn (hexp.mp hq))
  · rw [if_neg hq]
    exact iff_of_true rfl (fun hd => hq (hexp.mpr hd))

/-- C2 counterexample: the message "Resource exhausted" contains the claim's
indicator "resource exhausted" case-insensitively, yet both backends surface it as
a generic failure, not as QuotaExceeded. -/
theorem c2_counterexample :
    py_contains (py_lower "Resource exhausted") "resource exhausted" = true ∧
    generate_error_surface "Resource exhausted" =
      GenFailure.generic "Resource exhausted" ∧
    stream_error_surface "Resource exhausted" =
      GenFailure.generic "Resource exhausted" := by
  refine ⟨by decide, by decide, by decide⟩

/-- C3: `get_best_account` never returns an inactive credential or one with
non-positive remaining quota; any returned credential belongs to the owner and has
maximal remaining quota among the owner's qualifying credentials in the table left
by the day-rollover reset; when it returns none, no credential qualifies. -/
theorem c3_best_credential (uid : Int) (today : Nat) (db : List Account) :
    (∀ r db', get_best_account uid today db = (some r, db') →
        r.is_active = true ∧ 0 < r.daily_limit - r.daily_used ∧ r.user_id = uid ∧
          r ∈ db' ∧ db' = reset_daily_quotas_if_needed today db ∧
          ∀ a ∈ db', qualifies uid a = true → remaining a ≤ remaining r) ∧
    (∀ db', get_best_account uid today db = (none, db') →
        ∀ a ∈ db', qualifies uid a = false) := by
  constructor
  · intro r db' h
    obtain ⟨hdb, hmem, hq, hmax⟩ := get_best_some_facts uid today db r db' h
    obtain ⟨h1, h2, h3⟩ := (qualifies_iff uid r).mp hq
    exact ⟨h2, h3, h1, hmem, hdb, hmax⟩
  · intro db' h
    exact (get_best_none_facts uid today db db' h).2

/-- C3 witness: among one almost-exhausted, one fresh and one inactive credential,
the fresh one is selected, and it is active, in-quota and owned by the caller. -/
theorem c3_best_credential_witness :
    get_best_account 7 3 [w3_a1, w3_a2, w3_a3] = (some w3_a2, [w3_a1, w3_a2, w3_a3]) ∧
    w3_a2.is_active = true ∧ 0 < w3_a2.daily_limit - w3_a2.daily_used ∧
    w3_a2.user_id = 7 := by
  have h : get_best_account 7 3 [w3_a1, w3_a2, w3_a3] =
      (some w3_a2, [w3_a1, w3_a2, w3_a3]) := by decide
  obtain ⟨hA, _⟩ := c3_best_credential 7 3 [w3_a1, w3_a2, w3_a3]
  obtain ⟨h1, h2, h3, _⟩ := hA w3_a2 _ h
  exact ⟨h, h1, h2, h3⟩

/-- C5: `mark_account_error` with error type "429" sets the credential's daily_used
equal to its daily_limit, and as long as no day-rollover has occurred for that
credential (its stored reset day is still today), any immediately following
`get_best_account` call — for any owner — never returns it. -/
theorem c5_exhaustion (uid cid : Int) (today : Nat) (db : List Account)
    (hday : ∀ a ∈ db, a.id = cid → a.last_reset = today) :
    (∀ a ∈ mark_account_error cid "429" db, a.id = cid →
        a.daily_used = a.daily_limit) ∧
    (∀ r db',
        get_best_account uid today (mark_account_error cid "429" db) = (some r, db') →
        r.id ≠ cid) := by
  refine ⟨mark_account_error_sets cid db, ?_⟩
  intro r db' h hrid
  obtain ⟨hdb, hmem, hq, _⟩ := get_best_some_facts uid today _ r db' h
  subst hdb
  obtain ⟨m, hm, rfl⟩ := List.mem_map.mp hmem
  have hmid : m.id = cid := by rw [← reset_one_id today m]; exact hrid
  have hmused : m.daily_used = m.daily_limit := mark_account_error_sets cid db m hm hmid
  have hmday : m.last_reset = today := by
    unfold mark_account_error at hm
    rw [if_pos rfl] at hm
    obtain ⟨m0, hm0, rfl⟩ := List.mem_map.mp hm
    rw [mark_one_last_reset]
    exact hday m0 hm0 (by rw [← mark_one_id cid m0]; exact hmid)
  rw [reset_one_of_today today m hmday] at hq
  obtain ⟨_, _, h3⟩ := (qualifies_iff uid m).mp hq
  omega

/-- C5 witness: marking credential 1 maxes out its usage and the immediately
following selection returns credential 2 instead. -/
theorem c5_exhaustion_witness :
    mark_account_error 1 "429" [w5_a1, w5_a2] =
      [{ w5_a1 with daily_used := 10 }, w5_a2] ∧
    get_best_account 7 3 (mark_account_error 1 "429" [w5_a1, w5_a2]) =
      (some w5_a2, [{ w5_a1 with daily_used := 10 }, w5_a2]) ∧
    w5_a2.id ≠ 1 := by
  have hbest : get_best_account 7 3 (mark_account_error 1 "429" [w5_a1, w5_a2]) =
      (some w5_a2, [{ w5_a1 with daily_used := 10 }, w5_a2]) := by decide
  refine ⟨by decide, hbest, ?_⟩
  exact (c5_exhaustion 7 1 3 [w5_a1, w5_a2] (by decide)).2 w5_a2 _ hbest

/-- C6 (amended): the day-rollover reset — daily_used set to 0 and last_reset set to
today for every credential whose stored reset day is strictly before today — is
applied by `get_best_account` before any quota comparison (the selection reads only
the reset table), but it is applied only by the reading/selecting operations: the
ledger writes `increment_usage` and `mark_account_error` never touch last_reset and
so never apply the rollover themselves. -/
theorem c6_rollover (uid cid : Int) (et : String) (today : Nat) (db : List Account) :
    get_best_account uid today db =
      (pick_best uid (reset_daily_quotas_if_needed today db),
        reset_daily_quotas_if_needed today db) ∧
    (∀ a : Account, a.last_reset < today →
        (reset_one today a).daily_used = 0 ∧ (reset_one today a).last_reset = today) ∧
    (∀ a : Account, ¬a.last_reset < today → reset_one today a = a) ∧
    (increment_usage cid db).map Account.last_reset = db.map Account.last_reset ∧
    (mark_account_error cid et db).map Account.last_reset =
      db.map Account.last_reset := by
  refine ⟨rfl, ?_, ?_, ?_, ?_⟩
  · intro a h
    unfold reset_one
    rw [if_pos h]
    exact ⟨rfl, rfl⟩
  · intro a h
    unfold reset_one
    rw [if_neg h]
  · unfold increment_usage
    rw [List.map_map]
    apply List.map_congr_left
    intro a _
    simp only [Function.comp_apply]
    split <;> rfl
  · unfold mark_account_error
    split
    · rw [List.map_map]
      apply List.map_congr_left
      intro a _
      simp only [Function.comp_apply]
      exact mark_one_last_reset cid a
    · rfl

/-- C6 witness: a stale credential is reset by the read path, and the write path
leaves the reset-day column of the table unchanged. -/
theorem c6_rollover_witness :
    (reset_one 1 c6_acc).daily_used = 0 ∧ (reset_one 1 c6_acc).last_reset = 1 ∧
    (increment_usage 1 [c6_acc]).map Account.last_reset =
      [c6_acc].map Account.last_reset := by
  obtain ⟨_, h2, _, h4, _⟩ := c6_rollover 7 1 "429" 1 [c6_acc]
  obtain ⟨ha, hb⟩ := h2 c6_acc (by decide)
  exact ⟨ha, hb, h4⟩

/-- C6 counterexample: with today = 1, credential c6_acc has stored reset day
0 < 1, yet the ledger write `increment_usage` — an operation that writes the
credential — leaves daily_used = 6 and last_reset = 0: the claimed reset-on-every-
read-or-write does not happen on writes. -/
theorem c6_counterexample :
    c6_acc.last_reset < 1 ∧
    increment_usage 1 [c6_acc] = [{ c6_acc with daily_used := 6 }] ∧
    ¬((increment_usage 1 [c6_acc]).map Account.daily_used = [0] ∨
      (increment_usage 1 [c6_acc]).map Account.last_reset = [1]) := by
  refine ⟨by decide, by decide, by decide⟩

/-- C1 (amended): for a logical request whose generation stream raises
QuotaExceeded on every attempt, over credentials that each store a non-empty
secret (the data model requires exactly one non-empty secret per credential) and
with a positive retry budget (every call site uses the default 3), the rotating
stream performs at most `maxRetries` credential bind attempts, records no usage,
and then surfaces QuotaExceeded when every rebind found an eligible credential, or
NoQuotaAvailable when a rebind found none — with no further retry. -/
theorem c1_retry_budget (cfg : RunCfg) (maxRetries : Nat) (cur0 : Option Int)
    (db : List Account)
    (hpos : 0 < maxRetries)
    (hq : ∀ n, ∃ cs, cfg.oracle n = AttemptResult.quotaErr cs)
    (hkeys : ∀ a ∈ db, account_key a ≠ "") :
    (run_stream cfg maxRetries cur0 db).binds ≤ maxRetries ∧
    ((run_stream cfg maxRetries cur0 db).outcome = Outcome.quotaExceeded ∨
      (run_stream cfg maxRetries cur0 db).outcome = Outcome.noQuota) ∧
    (run_stream cfg maxRetries cur0 db).increments = [] := by
  have hbind : ∀ c0 : Option Int,
      (run_bind_first cfg maxRetries c0 db).binds ≤ maxRetries ∧
      ((run_bind_first cfg maxRetries c0 db).outcome = Outcome.quotaExceeded ∨
        (run_bind_first cfg maxRetries c0 db).outcome = Outcome.noQuota) ∧
      (run_bind_first cfg maxRetries c0 db).increments = [] := by
    intro c0
    unfold run_bind_first
    rcases hb : get_next_account cfg.uid cfg.today db with
      db2 | ⟨nm, accId, db2⟩ | ⟨accId, db2⟩
    · exact ⟨by dsimp only; omega, Or.inr rfl, rfl⟩
    · exfalso
      obtain ⟨hdb2, acc, hmem, hk, _⟩ :=
        get_next_no_key_facts cfg.uid cfg.today db nm accId db2 hb
      exact reset_key_preserved cfg.today db hkeys acc (hdb2 ▸ hmem) hk
    · have hkeys2 : ∀ a ∈ db2, account_key a ≠ "" := by
        obtain ⟨hdb2, _⟩ := get_next_bound_facts cfg.uid cfg.today db accId db2 hb
        rw [hdb2]
        exact reset_key_preserved cfg.today db hkeys
      obtain ⟨h1, h2, h3⟩ := run_attempts_quota cfg hq maxRetries 0 accId db2 [] 1 [] []
        hpos hkeys2
      exact ⟨by dsimp only; omega, h2, h3⟩
  cases cur0 with
  | none =>
      simp only [run_stream]
      exact hbind none
  | some c =>
      simp only [run_stream]
      by_cases hc : c = 0
      · rw [if_pos hc]
        exact hbind (some c)
      · rw [if_neg hc]
        obtain ⟨h1, h2, h3⟩ := run_attempts_quota cfg hq maxRetries 0 c db [] 0 [] []
          hpos hkeys
        exact ⟨by omega, h2, h3⟩

/-- C1 witness: one eligible keyed credential, an always-quota-exceeded stream, and
the default budget of 3: at most 3 bind attempts, no usage recorded, and one of the
two terminal failures surfaced. -/
theorem c1_retry_budget_witness :
    (run_stream c1_cfg 3 none [c1_acc]).binds ≤ 3 ∧
    ((run_stream c1_cfg 3 none [c1_acc]).outcome = Outcome.quotaExceeded ∨
      (run_stream c1_cfg 3 none [c1_acc]).outcome = Outcome.noQuota) ∧
    (run_stream c1_cfg 3 none [c1_acc]).increments = [] :=
  c1_retry_budget c1_cfg 3 none [c1_acc] (by decide) (fun _ => ⟨[], rfl⟩) (by decide)

/-- C1 counterexample: with a single eligible credential and a stream that raises
QuotaExceeded on every attempt (c1_cfg's oracle is constantly quotaErr), the
rotating client surfaces the NoQuotaAvailable ValueError of `_get_next_account`,
not QuotaExceeded, refuting the claim that QuotaExceeded is always what surfaces. -/
theorem c1_counterexample :
    (run_stream c1_cfg 3 none [c1_acc]).outcome = Outcome.noQuota ∧
    Outcome.noQuota ≠ Outcome.quotaExceeded := by
  refine ⟨by decide, by decide⟩

/-- Success accounting for the bind-first entry of the stream state machine. -/
theorem run_bind_success (cfg : RunCfg) (maxRetries : Nat) (c0 : Option Int)
    (db : List Account)
    (hpos : 0 < maxRetries)
    (hday : ∀ a ∈ db, a.last_reset = cfg.today)
    (hid : ∀ a ∈ db, a.id ≠ 0)
    (hsucc : (run_bind_first cfg maxRetries c0 db).outcome = Outcome.success) :
    ∃ a dbMid,
      (run_bind_first cfg maxRetries c0 db).cur = some a ∧
      (run_bind_first cfg maxRetries c0 db).increments = [a] ∧
      a ∉ (run_bind_first cfg maxRetries c0 db).marked ∧
      (run_bind_first cfg maxRetries c0 db).db = increment_usage a dbMid := by
  unfold run_bind_first at hsucc ⊢
  rcases hb : get_next_account cfg.uid cfg.today db with
    db2 | ⟨nm, accId, db2⟩ | ⟨accId, db2⟩
  · rw [hb] at hsucc
    exact Outcome.noConfusion hsucc
  · rw [hb] at hsucc
    exact Outcome.noConfusion hsucc
  · rw [hb] at hsucc
    obtain ⟨hdb2, acc, hmem, hqual, hacc, _⟩ :=
      get_next_bound_facts cfg.uid cfg.today db accId db2 hb
    have hdb2' : db2 = db := by
      rw [hdb2, reset_daily_of_today cfg.today db hday]
    have haccId0 : accId ≠ 0 := hacc ▸ hid acc (hdb2' ▸ hmem)
    obtain ⟨a, dbMid, h1, h2, h3, h4⟩ := run_attempts_success cfg maxRetries 0 accId db2
      [] 1 [] [] hpos (hdb2' ▸ hday) (hdb2' ▸ hid) haccId0 (List.not_mem_nil accId)
      (fun x _ hx => absurd hx (List.not_mem_nil _)) hsucc
    exact ⟨a, dbMid, h1, by simpa using h2, h3, h4⟩

/-- C4 (amended): for every logical request with a positive retry budget (every
call site uses the default 3) over credentials with SQLite-style nonzero ids whose
stored reset day is already today when the request starts (so no day-rollover reset
fires mid-request), a stream that completes normally records success by exactly one
usage increment, for exactly the credential bound at completion, and never for a
credential that was marked exhausted during an earlier attempt of the same
request. -/
theorem c4_success_accounting (cfg : RunCfg) (maxRetries : Nat) (cur0 : Option Int)
    (db : List Account)
    (hpos : 0 < maxRetries)
    (hday : ∀ a ∈ db, a.last_reset = cfg.today)
    (hid : ∀ a ∈ db, a.id ≠ 0)
    (hsucc : (run_stream cfg maxRetries cur0 db).outcome = Outcome.success) :
    ∃ a dbMid,
      (run_stream cfg maxRetries cur0 db).cur = some a ∧
      (run_stream cfg maxRetries cur0 db).increments = [a] ∧
      a ∉ (run_stream cfg maxRetries cur0 db).marked ∧
      (run_stream cfg maxRetries cur0 db).db = increment_usage a dbMid := by
  cases cur0 with
  | none =>
      simp only [run_stream] at hsucc ⊢
      exact run_bind_success cfg maxRetries none db hpos hday hid hsucc
  | some c =>
      simp only [run_stream] at hsucc ⊢
      by_cases hc : c = 0
      · rw [if_pos hc] at hsucc ⊢
        exact run_bind_success cfg maxRetries (some c) db hpos hday hid hsucc
      · rw [if_neg hc] at hsucc ⊢
        obtain ⟨a, dbMid, h1, h2, h3, h4⟩ := run_attempts_success cfg maxRetries 0 c db
          [] 0 [] [] hpos hday hid hc (List.not_mem_nil c)
          (fun x _ hx => absurd hx (List.not_mem_nil _)) hsucc
        exact ⟨a, dbMid, h1, by simpa using h2, h3, h4⟩

/-- C4 witness: a fresh request over one eligible credential whose stream succeeds
immediately: usage is incremented exactly once, for the completing credential 1,
which was never marked. -/
theorem c4_success_accounting_witness :
    (run_stream c4w_cfg 3 none [c4w_acc]).cur = some 1 ∧
    (run_stream c4w_cfg 3 none [c4w_acc]).increments = [1] ∧
    (run_stream c4w_cfg 3 none [c4w_acc]).marked = [] ∧
    (run_stream c4w_cfg 3 none [c4w_acc]).db = increment_usage 1 [c4w_acc] := by
  obtain ⟨a, dbMid, h1, h2, h3, h4⟩ :=
    c4_success_accounting c4w_cfg 3 none [c4w_acc] (by decide) (by decide) (by decide) rfl
  have hcur : (run_stream c4w_cfg 3 none [c4w_acc]).cur = some 1 := by decide
  have ha : a = 1 := by
    rw [hcur] at h1
    exact (Option.some.injEq a 1 ▸ h1.symm :)
  subst ha
  exact ⟨hcur, h2, by decide, by decide⟩

/-- C4 counterexample: a pre-bound client (the websocket connection outlives the
previous request) with one stale, fully exhausted credential at day 1: attempt 0
raises QuotaExceeded so credential 1 is marked exhausted, but the rebind's
day-rollover reset makes credential 1 eligible again, attempt 1 completes on it,
and its usage is incremented — a credential exhausted during an earlier attempt of
the same logical request receives the increment, refuting the claim as stated. -/
theorem c4_counterexample :
    (run_stream c4x_cfg 3 (some 1) [c4x_acc]).outcome = Outcome.success ∧
    (run_stream c4x_cfg 3 (some 1) [c4x_acc]).marked = [1] ∧
    (run_stream c4x_cfg 3 (some 1) [c4x_acc]).increments = [1] := by
  refine ⟨by decide, by decide, by decide⟩

/-- C7: when the client is unbound and no credential qualifies at bind time, the
rotating stream fails immediately with the distinct NoQuotaAvailable condition —
yielding no fragment, marking nothing and recording no usage — and the session
controller reports it to the caller as an error event while the connection stays
open and nothing is persisted. -/
theorem c7_no_quota_available (cfg : RunCfg) (storeCtx : List String)
    (prompt traceId : String) (cur0 : Option Int) (db : List Account)
    (hsafe : analyze_prompt prompt = (true, none))
    (hcur : cur0 = none ∨ cur0 = some 0)
    (hnone : pick_best cfg.uid (reset_daily_quotas_if_needed cfg.today db) = none) :
    (run_stream cfg 3 cur0 db).outcome = Outcome.noQuota ∧
    (run_stream cfg 3 cur0 db).chunks = [] ∧
    (run_stream cfg 3 cur0 db).marked = [] ∧
    (run_stream cfg 3 cur0 db).increments = [] ∧
    (handle_message cfg storeCtx prompt traceId cur0 db).events =
      [Event.start storeCtx.length traceId,
        Event.error (gen_error_msg no_quota_msg) traceId] ∧
    (handle_message cfg storeCtx prompt traceId cur0 db).stayOpen = true ∧
    (handle_message cfg storeCtx prompt traceId cur0 db).memoryWrites = [] := by
  have hnext : get_next_account cfg.uid cfg.today db =
      .noAccount (reset_daily_quotas_if_needed cfg.today db) := by
    unfold get_next_account get_best_account
    rw [hnone]
  have hrun : run_stream cfg 3 cur0 db =
      ⟨[], .noQuota, reset_daily_quotas_if_needed cfg.today db, cur0, 1, [], []⟩ := by
    rcases hcur with rfl | rfl
    · unfold run_stream run_bind_first
      rw [hnext]
    · unfold run_stream
      dsimp only
      rw [if_pos rfl]
      unfold run_bind_first
      rw [hnext]
  have hstep : handle_message cfg storeCtx prompt traceId cur0 db =
      { events := [Event.start storeCtx.length traceId,
          Event.error (gen_error_msg no_quota_msg) traceId],
        db := reset_daily_quotas_if_needed cfg.today db, cur := cur0,
        stayOpen := true, contextFetched := true, generationInvoked := true,
        memoryWrites := [] } := by
    unfold handle_message
    rw [hsafe]
    dsimp only
    rw [hrun]
    rfl
  refine ⟨by rw [hrun], by rw [hrun], by rw [hrun], by rw [hrun],
    by rw [hstep], by rw [hstep], by rw [hstep]⟩

/-- C7 witness: an empty credential table, a safe prompt and an unbound client:
the step emits exactly the start event and the NoQuotaAvailable error event, the
session stays open and nothing is persisted. -/
theorem c7_no_quota_available_witness :
    (run_stream c7w_cfg 3 none []).outcome = Outcome.noQuota ∧
    (handle_message c7w_cfg [] "hello" "t7" none []).events =
      [Event.start 0 "t7", Event.error (gen_error_msg no_quota_msg) "t7"] ∧
    (handle_message c7w_cfg [] "hello" "t7" none []).stayOpen = true ∧
    (handle_message c7w_cfg [] "hello" "t7" none []).memoryWrites = [] := by
  obtain ⟨h1, _, _, _, h5, h6, h7⟩ := c7_no_quota_available c7w_cfg [] "hello" "t7"
    none [] (by decide) (Or.inl rfl) rfl
  exact ⟨h1, h5, h6, h7⟩

/-- C8: when the risk filter flags a prompt, the controller's step emits exactly
one event — the error event carrying the filter's reason and this message's trace
id — the ledger table is untouched, the client binding is untouched, no context
fetch and no generation call happen, nothing is persisted, and the connection
stays open. -/
theorem c8_unsafe_prompt (cfg : RunCfg) (storeCtx : List String)
    (prompt traceId reason : String) (cur0 : Option Int) (db : List Account)
    (hflagged : analyze_prompt prompt = (false, some reason)) :
    handle_message cfg storeCtx prompt traceId cur0 db =
      { events := [Event.error reason traceId], db := db, cur := cur0,
        stayOpen := true, contextFetched := false, generationInvoked := false,
        memoryWrites := [] } := by
  unfold handle_message
  rw [hflagged]
  rfl

/-- C8 witness: the prompt "please rm -rf /" trips the rm -rf pattern; the step
emits only the error event and leaves every other component untouched. -/
theorem c8_unsafe_prompt_witness :
    analyze_prompt "please rm -rf /" =
      (false, some "Blocked: Malicious Command (rm -rf) detected.") ∧
    handle_message c8w_cfg [] "please rm -rf /" "t8" none [w3_a1] =
      { events := [Event.error "Blocked: Malicious Command (rm -rf) detected." "t8"],
        db := [w3_a1], cur := none, stayOpen := true, contextFetched := false,
        generationInvoked := false, memoryWrites := [] } := by
  have h : analyze_prompt "please rm -rf /" =
      (false, some "Blocked: Malicious Command (rm -rf) detected.") := by decide
  exact ⟨h, c8_unsafe_prompt c8w_cfg [] "please rm -rf /" "t8" _ none [w3_a1] h⟩

/-- C10: a prompt longer than 10000 characters that matches no risk pattern is
rejected by the risk filter with is_safe = false and the fixed maximum-length
reason, so the controller's step emits only that error event, performs no context
fetch, no generation call and no ledger or memory mutation, and keeps listening —
a length limit the spec never states. -/
theorem c10_length_limit (cfg : RunCfg) (storeCtx : List String)
    (prompt traceId : String) (cur0 : Option Int) (db : List Account)
    (hlen : 10000 < prompt.length)
    (hnorisk : find_risk (py_lower prompt) risk_patterns = none) :
    analyze_prompt prompt =
      (false, some "Blocked: Prompt exceeds maximum length (10k chars).") ∧
    handle_message cfg storeCtx prompt traceId cur0 db =
      { events :=
          [Event.error "Blocked: Prompt exceeds maximum length (10k chars)." traceId],
        db := db, cur := cur0, stayOpen := true, contextFetched := false,
        generationInvoked := false, memoryWrites := [] } := by
  have ha : analyze_prompt prompt =
      (false, some "Blocked: Prompt exceeds maximum length (10k chars).") := by
    unfold analyze_prompt
    rw [hnorisk, if_pos hlen]
  refine ⟨ha, ?_⟩
  unfold handle_message
  rw [ha]
  rfl

/-- C10 witness: a 10001-character prompt of the letter a matches no risk pattern,
is rejected for length, and the controller step emits only the error event. -/
theorem c10_length_limit_witness :
    analyze_prompt c10_prompt =
      (false, some "Blocked: Prompt exceeds maximum length (10k chars).") ∧
    handle_message c10w_cfg [] c10_prompt "t10" none [] =
      { events :=
          [Event.error "Blocked: Prompt exceeds maximum length (10k chars)." "t10"],
        db := [], cur := none, stayOpen := true, contextFetched := false,
        generationInvoked := false, memoryWrites := [] } :=
  c10_length_limit c10w_cfg [] c10_prompt "t10" none [] c10_prompt_long c10_no_risk

end GeminiDeck
